import Mathlib

/-!
# Verification of the Earn9ja fraud-prevention gate

Shallow embedding of `src/backend/src/services/FraudPreventionService.ts`.
The durable Mongo collections are modelled as in-memory lists
(`List LedgerRecord` for `OfferWallTransaction`, `List UserDoc` for `User`),
and the Redis expiring key-value store as explicit state records.
Timestamps are milliseconds since the epoch (`Int`); the JavaScript
real-number divisions are modelled exactly over `ℚ`, built with `mkRat`
(`mkRat a b = a / b` as rationals) so that every definition evaluates.
-/

namespace Earn9ja

/-- Transaction status of a ledger record (`status ∈ {pending, completed, failed}`). -/
inductive TxStatus where
  | pending
  | completed
  | failed
deriving DecidableEq, Repr

/-- One document of the `OfferWallTransaction` collection, restricted to the
fields the fraud service reads. -/
structure LedgerRecord where
  externalTransactionId : String
  userId : String
  providerId : String
  convertedAmount : Int
  status : TxStatus
  createdAt : Int
deriving DecidableEq, Repr

/-- One document of the `User` collection, restricted to the fields read
by `calculateRiskScore` (account creation time). -/
structure UserDoc where
  id : String
  createdAt : Int
deriving DecidableEq, Repr

namespace OfferWallTransaction

/-- Modelled from the spec: the ledger adapter's point lookup
`findByExternalId(id) -> LedgerRecord?` (§4.1).  The model file
`OfferWallTransaction.ts` defining this static is not among the provided
sources; per the spec it returns a stored record carrying the given
provider-assigned external transaction ID when one exists. -/
def findByExternalId (ledger : List LedgerRecord) (id : String) :
    Option LedgerRecord :=
  ledger.find? fun r => r.externalTransactionId == id

end OfferWallTransaction

namespace FraudPreventionService

def RATE_LIMIT_HOUR : Nat := 20

def RATE_LIMIT_DAY : Nat := 100

def HIGH_RISK_THRESHOLD : Nat := 70

def MEDIUM_RISK_THRESHOLD : Nat := 40

/-- Result of `checkDuplicate`. -/
structure DuplicateCheck where
  isDuplicate : Bool
  reason : Option String
deriving DecidableEq, Repr

/-- Results of `checkRateLimit` and `checkCompletionCooldown`
(`{allowed, reason?, retryAfter?}`). -/
structure AllowCheck where
  allowed : Bool
  reason : Option String
  retryAfter : Option Int
deriving DecidableEq, Repr

/-- `checkDuplicate`: exact match on the external transaction ID, then a
near-duplicate probe for the same user, provider and amount created within
the last minute. -/
def checkDuplicate (ledger : List LedgerRecord) (now : Int)
    (externalTransactionId userId : String) (amount : Int)
    (providerId : String) : DuplicateCheck :=
  match OfferWallTransaction.findByExternalId ledger externalTransactionId with
  | some _ => ⟨true, some "Transaction ID already exists"⟩
  | none =>
    let oneMinuteAgo : Int := now - 60 * 1000
    match ledger.find? (fun r =>
        r.userId == userId && r.providerId == providerId &&
        r.convertedAmount == amount && decide (oneMinuteAgo ≤ r.createdAt)) with
    | some _ => ⟨true, some "Similar transaction within 1 minute"⟩
    | none => ⟨false, none⟩

/-- Number of completed-status ledger records of the user created within the
last hour (the `countDocuments` query of `checkRateLimit`). -/
def hourlyCompleted (ledger : List LedgerRecord) (now : Int)
    (userId : String) : Nat :=
  (ledger.filter fun r =>
    r.userId == userId && r.status == TxStatus.completed &&
    decide (now - 60 * 60 * 1000 ≤ r.createdAt)).length

/-- Number of completed-status ledger records of the user created within the
last 24 hours (the second `countDocuments` query of `checkRateLimit`). -/
def dailyCompleted (ledger : List LedgerRecord) (now : Int)
    (userId : String) : Nat :=
  (ledger.filter fun r =>
    r.userId == userId && r.status == TxStatus.completed &&
    decide (now - 24 * 60 * 60 * 1000 ≤ r.createdAt)).length

/-- `checkRateLimit`: hourly ceiling of 20 and daily ceiling of 100 completed
records per user. -/
def checkRateLimit (ledger : List LedgerRecord) (now : Int)
    (userId : String) : AllowCheck :=
  let hourlyCount := hourlyCompleted ledger now userId
  if hourlyCount ≥ RATE_LIMIT_HOUR then
    ⟨false,
     some ("Rate limit exceeded: " ++ toString hourlyCount ++ "/20 per hour"),
     some 3600⟩
  else
    let dailyCount := dailyCompleted ledger now userId
    if dailyCount ≥ RATE_LIMIT_DAY then
      ⟨false,
       some ("Daily limit exceeded: " ++ toString dailyCount ++ "/100 per day"),
       some 86400⟩
    else ⟨true, none, none⟩

/-- Creation time of the most recent completed-status record of the user
(the `findOne ... sort({createdAt: -1})` query of `checkCompletionCooldown`). -/
def lastCompletedAt (ledger : List LedgerRecord) (userId : String) :
    Option Int :=
  ((ledger.filter fun r =>
      r.userId == userId && r.status == TxStatus.completed).map
    (fun r => r.createdAt)).max?

/-- `checkCompletionCooldown`: rejects when the last completion is less than
30 seconds old; `mkRat (now - t) 1000` is the elapsed time in seconds and
`mkRat (30000 - (now - t)) 1000` is `30 - elapsed`, whose ceiling the source
computes with `Math.ceil`. -/
def checkCompletionCooldown (ledger : List LedgerRecord) (now : Int)
    (userId : String) : AllowCheck :=
  match lastCompletedAt ledger userId with
  | some t =>
    if mkRat (now - t) 1000 < 30 then
      ⟨false, some "Cooldown period: 30s between completions",
       some ⌈mkRat (30 * 1000 - (now - t)) 1000⌉⟩
    else ⟨true, none, none⟩
  | none => ⟨true, none, none⟩

/-- Derived per-user activity metrics (`UserActivityPattern`). -/
structure UserActivityPattern where
  userId : String
  completionsLast24h : Nat
  completionsLastHour : Nat
  avgCompletionTime : ℚ
  uniqueProviders : Nat
  suspiciousPatterns : List String
deriving DecidableEq, Repr

/-- Insertion step of the newest-first ordering used by
`analyzeUserActivity`'s `.sort({createdAt: -1})`. -/
def insertByCreatedAtDesc (r : LedgerRecord) :
    List LedgerRecord → List LedgerRecord
  | [] => [r]
  | x :: xs =>
    if r.createdAt ≤ x.createdAt then x :: insertByCreatedAtDesc r xs
    else r :: x :: xs

/-- Newest-first ordering by `createdAt` (`.sort({createdAt: -1})`). -/
def sortByCreatedAtDesc (l : List LedgerRecord) : List LedgerRecord :=
  l.foldr insertByCreatedAtDesc []

/-- The `find({userId, createdAt: {$gte: dayAgo}}).sort({createdAt: -1})`
query of `analyzeUserActivity`: all of the user's records (any status)
created within the last 24 hours, newest first. -/
def recentTransactionsOf (ledger : List LedgerRecord) (now : Int)
    (userId : String) : List LedgerRecord :=
  sortByCreatedAtDesc (ledger.filter fun r =>
    r.userId == userId && decide (now - 24 * 60 * 60 * 1000 ≤ r.createdAt))

/-- Sum of consecutive `createdAt` differences over the newest-first window
(the `totalTimeBetween` accumulation loop), in milliseconds. -/
def totalTimeBetween : List LedgerRecord → Int
  | a :: b :: rest => (a.createdAt - b.createdAt) + totalTimeBetween (b :: rest)
  | _ => 0

/-- The suspicious-pattern labels of `analyzeUserActivity`, in push order.
`5 * roundAmounts > 4 * completionsLast24h` is the exact form of the
source's `roundAmounts > completionsLast24h * 0.8`. -/
def suspiciousPatternsOf (completionsLastHour : Nat) (avgCompletionTime : ℚ)
    (completionPairs : Nat) (uniqueProviders completionsLast24h : Nat)
    (roundAmounts : Nat) : List String :=
  (if completionsLastHour > 10 then ["High completion rate (>10/hour)"] else []) ++
  (if avgCompletionTime < 60 ∧ completionPairs > 5 then
    ["Unusually fast completions (<60s avg)"] else []) ++
  (if uniqueProviders = 1 ∧ completionsLast24h > 20 then
    ["Single provider focus (>20 completions)"] else []) ++
  (if 5 * roundAmounts > 4 * completionsLast24h ∧ completionsLast24h > 10 then
    ["Mostly round amounts (possible testing)"] else [])

/-- `analyzeUserActivity`: metrics over the user's records of the last
24 hours.  `completionPairs` is the number of loop iterations
(`length - 1` for a nonempty window), and `avgCompletionTime` is
`totalTimeBetween / completionPairs / 1000`, i.e.
`mkRat totalTimeBetween (completionPairs * 1000)`, in seconds. -/
def analyzeUserActivity (ledger : List LedgerRecord) (now : Int)
    (userId : String) : UserActivityPattern :=
  let recentTransactions := recentTransactionsOf ledger now userId
  let completionsLast24h := recentTransactions.length
  let completionsLastHour := (recentTransactions.filter fun t =>
    decide (now - 60 * 60 * 1000 ≤ t.createdAt)).length
  let completionPairs := recentTransactions.length - 1
  let avgCompletionTime : ℚ :=
    if completionPairs > 0 then
      mkRat (totalTimeBetween recentTransactions) (completionPairs * 1000)
    else 0
  let uniqueProviders := (recentTransactions.map
    (fun t => t.providerId)).dedup.length
  let roundAmounts := (recentTransactions.filter fun t =>
    t.convertedAmount % 100 == 0).length
  ⟨userId, completionsLast24h, completionsLastHour, avgCompletionTime,
   uniqueProviders,
   suspiciousPatternsOf completionsLastHour avgCompletionTime completionPairs
     uniqueProviders completionsLast24h roundAmounts⟩

/-- The pure scoring body of `calculateRiskScore`, as a function of the
activity pattern and the (optionally found) user document.
`mkRat (now - u.createdAt) 86400000` is the account age in days. -/
def scoreOfActivity (activity : UserActivityPattern) (user : Option UserDoc)
    (now : Int) : Nat :=
  let s1 : Nat :=
    if activity.completionsLastHour > 15 then 30
    else if activity.completionsLastHour > 10 then 15 else 0
  let s2 : Nat :=
    if activity.avgCompletionTime < 30 then 40
    else if activity.avgCompletionTime < 60 then 20 else 0
  let s3 : Nat :=
    if activity.uniqueProviders = 1 ∧ activity.completionsLast24h > 20 then 25
    else 0
  let s4 : Nat := activity.suspiciousPatterns.length * 10
  let s5 : Nat :=
    match user with
    | some u =>
      if mkRat (now - u.createdAt) (1000 * 60 * 60 * 24) < 7 ∧
          activity.completionsLast24h > 30 then 20
      else 0
    | none => 0
  min (s1 + s2 + s3 + s4 + s5) 100

/-- `calculateRiskScore`: analyzes the user's activity and applies the
scoring body; `User.findById` is a lookup in the users collection. -/
def calculateRiskScore (ledger : List LedgerRecord) (users : List UserDoc)
    (now : Int) (userId : String) : Nat :=
  scoreOfActivity (analyzeUserActivity ledger now userId)
    (users.find? fun u => u.id == userId) now

/-- The JSON document `flagUserForReview` stores under
`fraud:flagged:<userId>`. -/
structure FraudFlagEntry where
  userId : String
  reason : String
  flaggedAt : Int
deriving DecidableEq, Repr

/-- State of the Redis flag store: an association of keys to
(entry, TTL seconds) pairs, plus an availability bit — an operation on an
unavailable store throws in the source. -/
structure RedisState where
  flags : List (String × FraudFlagEntry × Nat)
  ok : Bool
deriving DecidableEq, Repr

/-- `redis.setex key ttl value` for the flag store: upsert with expiry, or
an error when the store is unavailable. -/
def redisSetex (st : RedisState) (key : String) (ttl : Nat)
    (value : FraudFlagEntry) : Except Unit RedisState :=
  if st.ok then
    .ok { st with
          flags := (key, value, ttl) :: st.flags.filter (fun kv => kv.1 != key) }
  else .error ()

/-- `redis.get key` for the flag store. -/
def redisGet (st : RedisState) (key : String) :
    Except Unit (Option FraudFlagEntry) :=
  if st.ok then .ok ((st.flags.find? fun kv => kv.1 == key).map fun kv => kv.2.1)
  else .error ()

/-- `flagUserForReview`: writes the flag with a 7-day TTL; the body is
wrapped in try/catch, so a store error is logged and swallowed and the state
is left unchanged. -/
def flagUserForReview (st : RedisState) (now : Int) (userId reason : String) :
    RedisState :=
  match redisSetex st ("fraud:flagged:" ++ userId) (86400 * 7)
      ⟨userId, reason, now⟩ with
  | .ok st2 => st2
  | .error _ => st

/-- `isUserFlagged`: reads the flag key; the catch branch returns `false`
on a store error. -/
def isUserFlagged (st : RedisState) (userId : String) : Bool :=
  match redisGet st ("fraud:flagged:" ++ userId) with
  | .ok v => v.isSome
  | .error _ => false

/-- Result record of `checkForFraud` (`FraudCheckResult`); `action` is one
of `allow`, `flag`, `block`. -/
inductive FraudAction where
  | allow
  | flag
  | block
deriving DecidableEq, Repr

structure FraudCheckResult where
  isFraudulent : Bool
  reasons : List String
  riskScore : Nat
  action : FraudAction
deriving DecidableEq, Repr

/-- The instantaneous part of `checkForFraud`'s running `riskScore`: +100
for a duplicate, +50 for a rate-limit breach, +30 for a cooldown breach. -/
def instantScore (ledger : List LedgerRecord) (now : Int)
    (userId externalTransactionId : String) (amount : Int)
    (providerId : String) : Nat :=
  (if (checkDuplicate ledger now externalTransactionId userId amount
      providerId).isDuplicate then 100 else 0) +
  (if (checkRateLimit ledger now userId).allowed then 0 else 50) +
  (if (checkCompletionCooldown ledger now userId).allowed then 0 else 30)

/-- `checkForFraud`'s final `riskScore`: the maximum of the instantaneous
score and the account risk score. -/
def fraudRiskScore (ledger : List LedgerRecord) (users : List UserDoc)
    (now : Int) (userId externalTransactionId : String) (amount : Int)
    (providerId : String) : Nat :=
  max (instantScore ledger now userId externalTransactionId amount providerId)
    (calculateRiskScore ledger users now userId)

/-- The `reasons` list accumulated by `checkForFraud`, in push order. -/
def fraudReasons (ledger : List LedgerRecord) (now : Int)
    (userId externalTransactionId : String) (amount : Int)
    (providerId : String) : List String :=
  (let duplicateCheck :=
    checkDuplicate ledger now externalTransactionId userId amount providerId
   if duplicateCheck.isDuplicate then [duplicateCheck.reason.getD ""] else []) ++
  (let rateLimitCheck := checkRateLimit ledger now userId
   if rateLimitCheck.allowed then [] else [rateLimitCheck.reason.getD ""]) ++
  (let cooldownCheck := checkCompletionCooldown ledger now userId
   if cooldownCheck.allowed then [] else [cooldownCheck.reason.getD ""]) ++
  (analyzeUserActivity ledger now userId).suspiciousPatterns

/-- The action decided by `checkForFraud` from the final risk score. -/
def fraudAction (ledger : List LedgerRecord) (users : List UserDoc)
    (now : Int) (userId externalTransactionId : String) (amount : Int)
    (providerId : String) : FraudAction :=
  if fraudRiskScore ledger users now userId externalTransactionId amount
      providerId ≥ HIGH_RISK_THRESHOLD then .block
  else if fraudRiskScore ledger users now userId externalTransactionId amount
      providerId ≥ MEDIUM_RISK_THRESHOLD then .flag
  else .allow

/-- `checkForFraud`: combines the duplicate, rate-limit and cooldown checks
with the account risk score, decides the action, and on `block` performs the
flag-store side effect.  Returns the decision together with the resulting
flag-store state. -/
def checkForFraud (ledger : List LedgerRecord) (users : List UserDoc)
    (st : RedisState) (now : Int) (userId externalTransactionId : String)
    (amount : Int) (providerId : String) : FraudCheckResult × RedisState :=
  let riskScore :=
    fraudRiskScore ledger users now userId externalTransactionId amount
      providerId
  let reasons :=
    fraudReasons ledger now userId externalTransactionId amount providerId
  let action :=
    fraudAction ledger users now userId externalTransactionId amount providerId
  let st2 :=
    if action == FraudAction.block then
      flagUserForReview st now userId (String.intercalate ", " reasons)
    else st
  (⟨action == FraudAction.block, reasons, riskScore, action⟩, st2)

/-- Value stored by the IP abuse tracker under `fraud:ip:<ipAddress>`. -/
structure IPData where
  users : List String
  count : Nat
  lastSeen : Int
deriving DecidableEq, Repr

/-- Result of one `trackIPAddress` call. -/
structure IPCheck where
  suspicious : Bool
  reason : Option String
deriving DecidableEq, Repr

/-- `trackIPAddress`: loads or initializes the IP record, adds the user if
new, increments the request count, refreshes `lastSeen`, persists the record
with a 24-hour expiry, and evaluates the suspicion rules on the updated
record.  The stored value is passed and returned explicitly. -/
def trackIPAddress (stored : Option IPData) (userId : String) (now : Int) :
    IPCheck × IPData :=
  let ipData := stored.getD ⟨[], 0, 0⟩
  let users :=
    if userId ∈ ipData.users then ipData.users else ipData.users ++ [userId]
  let d : IPData := ⟨users, ipData.count + 1, now⟩
  if d.users.length > 5 then
    (⟨true, some ("Multiple users (" ++ toString d.users.length ++
      ") from same IP")⟩, d)
  else if d.count > 100 then
    (⟨true, some ("High request count (" ++ toString d.count ++
      ") from IP")⟩, d)
  else (⟨false, none⟩, d)

/-- Sequence of `trackIPAddress` calls against one IP key, threading the
stored record; returns the per-call results and the final stored record. -/
def trackSeq (now : Int) : List String → Option IPData →
    List IPCheck × Option IPData
  | [], st => ([], st)
  | u :: us, st =>
    let r := trackIPAddress st u now
    let rest := trackSeq now us (some r.2)
    (r.1 :: rest.1, rest.2)

end FraudPreventionService

end Earn9ja

namespace Earn9ja

namespace FraudPreventionService

lemma checkDuplicate_of_existing_id (ledger : List LedgerRecord) (now : Int)
    (extId userId : String) (amount : Int) (providerId : String)
    (h : ∃ r ∈ ledger, r.externalTransactionId = extId) :
    checkDuplicate ledger now extId userId amount providerId =
      ⟨true, some "Transaction ID already exists"⟩ := by
  obtain ⟨r, hr, hid⟩ := h
  have hsome : (OfferWallTransaction.findByExternalId ledger extId).isSome := by
    unfold OfferWallTransaction.findByExternalId
    rw [List.find?_isSome]
    exact ⟨r, hr, by simp [hid]⟩
  obtain ⟨r0, hr0⟩ := Option.isSome_iff_exists.mp hsome
  unfold checkDuplicate
  rw [hr0]

lemma instantScore_ge_100_of_dup (ledger : List LedgerRecord) (now : Int)
    (userId extId : String) (amount : Int) (providerId : String)
    (h : (checkDuplicate ledger now extId userId amount
      providerId).isDuplicate = true) :
    100 ≤ instantScore ledger now userId extId amount providerId := by
  unfold instantScore
  rw [h]
  simp only [if_true]
  omega

/-- C1: whenever some ledger record already carries the event's
`externalTransactionId` with a non-failed status, `checkForFraud` decides
`action = block` with `isFraudulent = true`, regardless of every other
signal (rate limit, cooldown, behavioral metrics, account age, store
state). -/
theorem checkForFraud_blocks_existing_externalId
    (ledger : List LedgerRecord) (users : List UserDoc) (st : RedisState)
    (now : Int) (userId extId : String) (amount : Int) (providerId : String)
    (h : ∃ r ∈ ledger,
      r.externalTransactionId = extId ∧ r.status ≠ TxStatus.failed) :
    (checkForFraud ledger users st now userId extId amount
        providerId).1.action = FraudAction.block ∧
    (checkForFraud ledger users st now userId extId amount
        providerId).1.isFraudulent = true := by
  have hdup :
      (checkDuplicate ledger now extId userId amount providerId).isDuplicate
        = true := by
    rw [checkDuplicate_of_existing_id ledger now extId userId amount providerId
      (by obtain ⟨r, hr, hid, _⟩ := h; exact ⟨r, hr, hid⟩)]
  have hscore :
      fraudRiskScore ledger users now userId extId amount providerId ≥
        HIGH_RISK_THRESHOLD := by
    have h1 := instantScore_ge_100_of_dup ledger now userId extId amount
      providerId hdup
    have h2 := Nat.le_max_left
      (instantScore ledger now userId extId amount providerId)
      (calculateRiskScore ledger users now userId)
    unfold fraudRiskScore HIGH_RISK_THRESHOLD
    omega
  have haction :
      fraudAction ledger users now userId extId amount providerId =
        FraudAction.block := by
    unfold fraudAction
    rw [if_pos hscore]
  refine ⟨?_, ?_⟩
  · show fraudAction ledger users now userId extId amount providerId =
      FraudAction.block
    exact haction
  · show (fraudAction ledger users now userId extId amount providerId ==
      FraudAction.block) = true
    rw [haction]
    rfl

/-- C1 witness: a concrete ledger holding a completed record with the
incoming external transaction ID is blocked. -/
theorem checkForFraud_blocks_existing_externalId_witness :
    (checkForFraud [⟨"t1", "u1", "p1", 50, TxStatus.completed, 1000000⟩] []
        ⟨[], true⟩ 1000000 "u1" "t1" 50 "p1").1.action = FraudAction.block ∧
    (checkForFraud [⟨"t1", "u1", "p1", 50, TxStatus.completed, 1000000⟩] []
        ⟨[], true⟩ 1000000 "u1" "t1" 50 "p1").1.isFraudulent = true :=
  checkForFraud_blocks_existing_externalId
    [⟨"t1", "u1", "p1", 50, TxStatus.completed, 1000000⟩] [] ⟨[], true⟩
    1000000 "u1" "t1" 50 "p1" (by decide)

/-- C2 counterexample: a duplicate event from a user inside the cooldown
window is scored `100 + 30 = 130`, which `checkForFraud` returns unclamped —
its `riskScore` is not confined to `[0, 100]`. -/
theorem checkForFraud_riskScore_exceeds_100 :
    (checkForFraud [⟨"t1", "u1", "p1", 50, TxStatus.completed, 1000000⟩] []
        ⟨[], true⟩ 1000000 "u1" "t1" 50 "p1").1.riskScore = 130 ∧
    ¬((checkForFraud [⟨"t1", "u1", "p1", 50, TxStatus.completed, 1000000⟩] []
        ⟨[], true⟩ 1000000 "u1" "t1" 50 "p1").1.riskScore ≤ 100) := by
  decide

/-- C2 (amended): `calculateRiskScore` is clamped to `[0, 100]`, but the
`riskScore` returned by `checkForFraud` is only bounded by `[0, 180]`
(duplicate 100 + rate limit 50 + cooldown 30); both are `Nat`, hence never
negative. -/
theorem riskScore_bounds (ledger : List LedgerRecord) (users : List UserDoc)
    (st : RedisState) (now : Int) (userId extId : String) (amount : Int)
    (providerId : String) :
    calculateRiskScore ledger users now userId ≤ 100 ∧
    (checkForFraud ledger users st now userId extId amount
        providerId).1.riskScore ≤ 180 := by
  have hclamp : calculateRiskScore ledger users now userId ≤ 100 := by
    unfold calculateRiskScore scoreOfActivity
    exact Nat.min_le_right _ _
  refine ⟨hclamp, ?_⟩
  show fraudRiskScore ledger users now userId extId amount providerId ≤ 180
  have hinst :
      instantScore ledger now userId extId amount providerId ≤ 180 := by
    unfold instantScore
    split_ifs <;> omega
  unfold fraudRiskScore
  omega

/-- C3 counterexample: with the flag store unavailable, `checkForFraud`
still returns a `block` decision as its ordinary result while no
`FraudFlag` was persisted (the store write's error is swallowed). -/
theorem block_returned_without_flag :
    (checkForFraud [⟨"t2", "u2", "p1", 50, TxStatus.completed, 2000000⟩] []
        ⟨[], false⟩ 2000000 "u2" "t2" 50 "p1").1.action = FraudAction.block ∧
    (checkForFraud [⟨"t2", "u2", "p1", 50, TxStatus.completed, 2000000⟩] []
        ⟨[], false⟩ 2000000 "u2" "t2" 50 "p1").2.flags = [] := by
  decide

/-- C3 (amended): the flag write is sequenced before `checkForFraud`
returns, and when the flag store is available every `block` decision leaves
the user flagged in the returned store state; but a failed store write is
caught and logged, so a `block` can be returned as success with no
persisted flag. -/
theorem block_persists_flag_when_store_ok (ledger : List LedgerRecord)
    (users : List UserDoc) (st : RedisState) (now : Int)
    (userId extId : String) (amount : Int) (providerId : String)
    (hok : st.ok = true)
    (hb : (checkForFraud ledger users st now userId extId amount
      providerId).1.action = FraudAction.block) :
    isUserFlagged (checkForFraud ledger users st now userId extId amount
      providerId).2 userId = true := by
  have hact : fraudAction ledger users now userId extId amount providerId =
      FraudAction.block := hb
  show isUserFlagged
    (if fraudAction ledger users now userId extId amount providerId ==
        FraudAction.block then
      flagUserForReview st now userId (String.intercalate ", "
        (fraudReasons ledger now userId extId amount providerId))
    else st) userId = true
  rw [hact]
  simp only [beq_self_eq_true, if_true]
  unfold flagUserForReview redisSetex
  rw [hok]
  simp only [if_true]
  unfold isUserFlagged redisGet
  simp [hok]

lemma hourlyCompleted_cons_non_completed (ledger : List LedgerRecord)
    (now : Int) (userId : String) (r : LedgerRecord)
    (h : r.status ≠ TxStatus.completed) :
    hourlyCompleted (r :: ledger) now userId =
      hourlyCompleted ledger now userId := by
  have hb : (r.status == TxStatus.completed) = false :=
    beq_eq_false_iff_ne.mpr h
  unfold hourlyCompleted
  simp [List.filter_cons, hb]

lemma dailyCompleted_cons_non_completed (ledger : List LedgerRecord)
    (now : Int) (userId : String) (r : LedgerRecord)
    (h : r.status ≠ TxStatus.completed) :
    dailyCompleted (r :: ledger) now userId =
      dailyCompleted ledger now userId := by
  have hb : (r.status == TxStatus.completed) = false :=
    beq_eq_false_iff_ne.mpr h
  unfold dailyCompleted
  simp [List.filter_cons, hb]

/-- C4: with at least 20 completed records of the user inside the last hour
the rate limiter rejects with `retryAfter = 3600` and a reason carrying the
measured count and the limit 20; below the hourly ceiling, at least 100
completed records inside 24 hours reject with `retryAfter = 86400`; and
both ceilings count completed-status records only — a record of any other
status never changes the outcome. -/
theorem checkRateLimit_ceilings (ledger : List LedgerRecord) (now : Int)
    (userId : String) :
    (20 ≤ hourlyCompleted ledger now userId →
      checkRateLimit ledger now userId =
        ⟨false,
         some ("Rate limit exceeded: " ++
           toString (hourlyCompleted ledger now userId) ++ "/20 per hour"),
         some 3600⟩) ∧
    (hourlyCompleted ledger now userId < 20 →
      100 ≤ dailyCompleted ledger now userId →
      checkRateLimit ledger now userId =
        ⟨false,
         some ("Daily limit exceeded: " ++
           toString (dailyCompleted ledger now userId) ++ "/100 per day"),
         some 86400⟩) ∧
    (∀ r : LedgerRecord, r.status ≠ TxStatus.completed →
      checkRateLimit (r :: ledger) now userId =
        checkRateLimit ledger now userId) := by
  refine ⟨?_, ?_, ?_⟩
  · intro h
    unfold checkRateLimit
    rw [if_pos (by unfold RATE_LIMIT_HOUR; omega)]
  · intro h1 h2
    unfold checkRateLimit
    rw [if_neg (by unfold RATE_LIMIT_HOUR; omega),
      if_pos (by unfold RATE_LIMIT_DAY; omega)]
  · intro r hr
    unfold checkRateLimit
    rw [hourlyCompleted_cons_non_completed ledger now userId r hr,
      dailyCompleted_cons_non_completed ledger now userId r hr]

/-- C4 witness: 20 identical completed records inside the hour trip the
hourly ceiling; a pending record on top changes nothing. -/
theorem checkRateLimit_ceilings_witness :
    checkRateLimit
        (List.replicate 20 ⟨"t1", "u1", "p1", 50, TxStatus.completed, 0⟩)
        1000 "u1" =
      ⟨false, some "Rate limit exceeded: 20/20 per hour", some 3600⟩ ∧
    checkRateLimit
        (⟨"tp", "u1", "p1", 50, TxStatus.pending, 0⟩ ::
          List.replicate 20 ⟨"t1", "u1", "p1", 50, TxStatus.completed, 0⟩)
        1000 "u1" =
      checkRateLimit
        (List.replicate 20 ⟨"t1", "u1", "p1", 50, TxStatus.completed, 0⟩)
        1000 "u1" := by
  constructor
  · have h := (checkRateLimit_ceilings
      (List.replicate 20 ⟨"t1", "u1", "p1", 50, TxStatus.completed, 0⟩)
      1000 "u1").1 (by decide)
    rw [h]
    decide
  · exact (checkRateLimit_ceilings
      (List.replicate 20 ⟨"t1", "u1", "p1", 50, TxStatus.completed, 0⟩)
      1000 "u1").2.2 ⟨"tp", "u1", "p1", 50, TxStatus.pending, 0⟩ (by decide)

/-- C5: for a user whose most recent completed record is
`(now - t) / 1000 = elapsed` seconds old (with sane clocks, `elapsed ≥ 0`):
if `elapsed < 30` the cooldown rejects with
`retryAfter = ⌈30 - elapsed⌉ ∈ (0, 30]`; if `elapsed ≥ 31` it allows; and
with no prior completed record it allows. -/
theorem checkCompletionCooldown_spec (ledger : List LedgerRecord) (now : Int)
    (userId : String) :
    (∀ t, lastCompletedAt ledger userId = some t → 0 ≤ now - t →
      ((mkRat (now - t) 1000 < 30 →
        checkCompletionCooldown ledger now userId =
          ⟨false, some "Cooldown period: 30s between completions",
           some ⌈(30 : ℚ) - mkRat (now - t) 1000⌉⟩ ∧
        0 < ⌈(30 : ℚ) - mkRat (now - t) 1000⌉ ∧
        ⌈(30 : ℚ) - mkRat (now - t) 1000⌉ ≤ 30) ∧
       ((31 : ℚ) ≤ mkRat (now - t) 1000 →
        (checkCompletionCooldown ledger now userId).allowed = true))) ∧
    (lastCompletedAt ledger userId = none →
      (checkCompletionCooldown ledger now userId).allowed = true) := by
  have hmk : ∀ a : Int, (mkRat a 1000 : ℚ) = (a : ℚ) / 1000 := by
    intro a
    rw [Rat.mkRat_eq_div]
    norm_num
  constructor
  · intro t ht hnn
    have hnnq : (0 : ℚ) ≤ mkRat (now - t) 1000 := by
      rw [hmk]
      have : (0 : ℚ) ≤ ((now - t : Int) : ℚ) := by exact_mod_cast hnn
      positivity
    constructor
    · intro hlt
      have hceil : (⌈mkRat (30 * 1000 - (now - t)) 1000⌉ : ℤ) =
          ⌈(30 : ℚ) - mkRat (now - t) 1000⌉ := by
        congr 1
        rw [hmk, hmk]
        push_cast
        ring
      refine ⟨?_, ?_, ?_⟩
      · unfold checkCompletionCooldown
        rw [ht]
        dsimp only
        rw [if_pos hlt, hceil]
      · exact Int.ceil_pos.mpr (by linarith)
      · refine Int.ceil_le.mpr ?_
        push_cast
        linarith
    · intro h31
      unfold checkCompletionCooldown
      rw [ht]
      dsimp only
      rw [if_neg (by linarith : ¬mkRat (now - t) 1000 < 30)]
  · intro hn
    unfold checkCompletionCooldown
    rw [hn]

/-- C5 witness: a completion 10 seconds old is rejected with
`retryAfter = 20`; a user without prior completions is allowed. -/
theorem checkCompletionCooldown_spec_witness :
    checkCompletionCooldown [⟨"t1", "u1", "p1", 50, TxStatus.completed, 0⟩]
        10000 "u1" =
      ⟨false, some "Cooldown period: 30s between completions", some 20⟩ ∧
    (checkCompletionCooldown [] 10000 "u1").allowed = true := by
  constructor
  · have h := ((checkCompletionCooldown_spec
      [⟨"t1", "u1", "p1", 50, TxStatus.completed, 0⟩] 10000 "u1").1 0
      (by decide) (by decide)).1 (by decide)
    have : (⌈(30 : ℚ) - mkRat (10000 - 0) 1000⌉ : ℤ) = 20 := by
      rw [show (mkRat (10000 - 0) 1000 : ℚ) = 10 from by decide]
      rw [show ((30 : ℚ) - 10) = ((20 : ℤ) : ℚ) from by norm_num]
      exact Int.ceil_intCast 20
    rw [h.1, this]
  · exact (checkCompletionCooldown_spec [] 10000 "u1").2 (by decide)

/-- C6 counterexample: `analyzeUserActivity` has neither a status filter
nor a 100-record cap — a single pending-status record is counted in the
metrics, and a 101-record window yields `completionsLast24h = 101`, which
no computation over at most the 100 most recent completed records could
produce. -/
theorem analyzeUserActivity_scope_counterexample :
    (analyzeUserActivity [⟨"tp", "u1", "p1", 100, TxStatus.pending, 500⟩]
        500 "u1").completionsLast24h = 1 ∧
    (analyzeUserActivity
        ((List.range 101).map fun i =>
          ⟨"t" ++ toString i, "u1", "p1", 50, TxStatus.completed,
           (i : Int) * 1000⟩)
        100000 "u1").completionsLast24h = 101 := by
  decide

lemma length_insertByCreatedAtDesc (r : LedgerRecord)
    (l : List LedgerRecord) :
    (insertByCreatedAtDesc r l).length = l.length + 1 := by
  induction l with
  | nil => rfl
  | cons x xs ih =>
    unfold insertByCreatedAtDesc
    split
    · simp [ih]
    · simp

lemma length_sortByCreatedAtDesc (l : List LedgerRecord) :
    (sortByCreatedAtDesc l).length = l.length := by
  induction l with
  | nil => rfl
  | cons x xs ih =>
    unfold sortByCreatedAtDesc at ih ⊢
    simp [List.foldr_cons, length_insertByCreatedAtDesc, ih]

lemma recentTransactionsOf_filter_self (ledger : List LedgerRecord)
    (now : Int) (userId : String) :
    recentTransactionsOf
        (ledger.filter fun r =>
          r.userId == userId &&
          decide (now - 24 * 60 * 60 * 1000 ≤ r.createdAt))
        now userId =
      recentTransactionsOf ledger now userId := by
  unfold recentTransactionsOf
  rw [List.filter_filter]
  simp only [Bool.and_self]

/-- C6 (amended): `analyzeUserActivity` computes its metrics over all of
the user's ledger records of any status whose `createdAt` lies within the
last 24 hours, with no 100-record cap (newest-first ordered): records of
other users or outside the window never affect the result, and
`completionsLast24h` is exactly the count of the user's in-window records
of every status. -/
theorem analyzeUserActivity_window (ledger : List LedgerRecord) (now : Int)
    (userId : String) :
    analyzeUserActivity
        (ledger.filter fun r =>
          r.userId == userId &&
          decide (now - 24 * 60 * 60 * 1000 ≤ r.createdAt))
        now userId =
      analyzeUserActivity ledger now userId ∧
    (analyzeUserActivity ledger now userId).completionsLast24h =
      (ledger.filter fun r =>
        r.userId == userId &&
        decide (now - 24 * 60 * 60 * 1000 ≤ r.createdAt)).length := by
  constructor
  · unfold analyzeUserActivity
    rw [recentTransactionsOf_filter_self]
  · show (recentTransactionsOf ledger now userId).length = _
    unfold recentTransactionsOf
    rw [length_sortByCreatedAtDesc]

/-- C7 counterexample: a window of exactly 6 completed records with average
spacing 1 second (< 60) — the claim demands the “unusually fast
completions” label, but the source requires `completionPairs > 5`, i.e. at
least 7 records, so the label is absent. -/
theorem fast_label_six_records_counterexample :
    (analyzeUserActivity
        ((List.range 6).map fun i =>
          ⟨"t" ++ toString i, "u1", "p1", 50, TxStatus.completed,
           (i : Int) * 1000⟩)
        5000 "u1").completionsLast24h = 6 ∧
    (analyzeUserActivity
        ((List.range 6).map fun i =>
          ⟨"t" ++ toString i, "u1", "p1", 50, TxStatus.completed,
           (i : Int) * 1000⟩)
        5000 "u1").avgCompletionTime < 60 ∧
    "Unusually fast completions (<60s avg)" ∉
      (analyzeUserActivity
        ((List.range 6).map fun i =>
          ⟨"t" ++ toString i, "u1", "p1", 50, TxStatus.completed,
           (i : Int) * 1000⟩)
        5000 "u1").suspiciousPatterns := by
  decide

lemma fast_label_mem_suspiciousPatternsOf (h : Nat) (avg : ℚ)
    (pairs up c24 ra : Nat) :
    "Unusually fast completions (<60s avg)" ∈
        suspiciousPatternsOf h avg pairs up c24 ra ↔
      avg < 60 ∧ pairs > 5 := by
  unfold suspiciousPatternsOf
  split_ifs with h1 h2 h3 h4 <;> simp_all

/-- C7 (amended): the “unusually fast completions” label appears exactly
when `avgCompletionTime < 60` and the fetched window holds at least **7**
records (the source requires more than 5 inter-arrival pairs, and a window
of n records has n − 1 pairs); and `avgCompletionTime = 0` whenever the
window holds fewer than two records. -/
theorem fast_completions_label_iff (ledger : List LedgerRecord) (now : Int)
    (userId : String) :
    ("Unusually fast completions (<60s avg)" ∈
        (analyzeUserActivity ledger now userId).suspiciousPatterns ↔
      (analyzeUserActivity ledger now userId).avgCompletionTime < 60 ∧
      7 ≤ (analyzeUserActivity ledger now userId).completionsLast24h) ∧
    ((analyzeUserActivity ledger now userId).completionsLast24h < 2 →
      (analyzeUserActivity ledger now userId).avgCompletionTime = 0) := by
  unfold analyzeUserActivity
  dsimp only
  constructor
  · rw [fast_label_mem_suspiciousPatternsOf]
    constructor
    · rintro ⟨ha, hp⟩
      have : (if (recentTransactionsOf ledger now userId).length - 1 > 0 then
          mkRat (totalTimeBetween (recentTransactionsOf ledger now userId))
            (((recentTransactionsOf ledger now userId).length - 1) * 1000)
        else 0) = mkRat
          (totalTimeBetween (recentTransactionsOf ledger now userId))
          (((recentTransactionsOf ledger now userId).length - 1) * 1000) := by
        rw [if_pos (by omega)]
      rw [this] at ha ⊢
      exact ⟨ha, by omega⟩
    · rintro ⟨ha, hp⟩
      exact ⟨ha, by omega⟩
  · intro hlt
    rw [if_neg (by omega)]

/-- C7 (amended) witness: with 7 one-second-spaced completed records the
label is present; a single-record window has zero average completion
time. -/
theorem fast_completions_label_iff_witness :
    "Unusually fast completions (<60s avg)" ∈
      (analyzeUserActivity
        ((List.range 7).map fun i =>
          ⟨"t" ++ toString i, "u1", "p1", 50, TxStatus.completed,
           (i : Int) * 1000⟩)
        6000 "u1").suspiciousPatterns ∧
    (analyzeUserActivity [⟨"t0", "u1", "p1", 50, TxStatus.completed, 0⟩]
      0 "u1").avgCompletionTime = 0 := by
  constructor
  · exact (fast_completions_label_iff
      ((List.range 7).map fun i =>
        ⟨"t" ++ toString i, "u1", "p1", 50, TxStatus.completed,
         (i : Int) * 1000⟩)
      6000 "u1").1.mpr ⟨by decide, by decide⟩
  · exact (fast_completions_label_iff
      [⟨"t0", "u1", "p1", 50, TxStatus.completed, 0⟩] 0 "u1").2 (by decide)

/-- C8: the account risk score is monotone in each signal with the others
held fixed — non-decreasing in `completionsLastHour`, non-increasing in
`avgCompletionTime` (so a faster average never lowers it), and adding one
more suspicious-pattern label never lowers it. -/
theorem scoreOfActivity_monotone :
    (∀ (act : UserActivityPattern) (user : Option UserDoc) (now : Int)
      (n m : Nat), n ≤ m →
      scoreOfActivity { act with completionsLastHour := n } user now ≤
        scoreOfActivity { act with completionsLastHour := m } user now) ∧
    (∀ (act : UserActivityPattern) (user : Option UserDoc) (now : Int)
      (q r : ℚ), q ≤ r →
      scoreOfActivity { act with avgCompletionTime := r } user now ≤
        scoreOfActivity { act with avgCompletionTime := q } user now) ∧
    (∀ (act : UserActivityPattern) (user : Option UserDoc) (now : Int)
      (label : String),
      scoreOfActivity act user now ≤
        scoreOfActivity
          { act with suspiciousPatterns := label :: act.suspiciousPatterns }
          user now) := by
  refine ⟨?_, ?_, ?_⟩
  · intro act user now n m hnm
    unfold scoreOfActivity
    dsimp only
    cases user <;> split_ifs <;> omega
  · intro act user now q r hqr
    unfold scoreOfActivity
    dsimp only
    cases user <;> split_ifs <;> first | omega | (exfalso; linarith)
  · intro act user now label
    unfold scoreOfActivity
    dsimp only
    simp only [List.length_cons]
    cases user <;> split_ifs <;> omega

/-- C8 witness: concrete instantiations of the three monotonicity parts. -/
theorem scoreOfActivity_monotone_witness :
    scoreOfActivity ⟨"u1", 0, 2, 90, 2, []⟩ none 0 ≤
      scoreOfActivity ⟨"u1", 0, 16, 90, 2, []⟩ none 0 ∧
    scoreOfActivity ⟨"u1", 0, 2, 90, 2, []⟩ none 0 ≤
      scoreOfActivity ⟨"u1", 0, 2, 10, 2, []⟩ none 0 ∧
    scoreOfActivity ⟨"u1", 0, 2, 90, 2, []⟩ none 0 ≤
      scoreOfActivity ⟨"u1", 0, 2, 90, 2, ["x"]⟩ none 0 :=
  ⟨scoreOfActivity_monotone.1 ⟨"u1", 0, 2, 90, 2, []⟩ none 0 2 16
    (by omega),
   scoreOfActivity_monotone.2.1 ⟨"u1", 0, 2, 90, 2, []⟩ none 0 10 90
    (by norm_num),
   scoreOfActivity_monotone.2.2 ⟨"u1", 0, 2, 90, 2, []⟩ none 0 "x"⟩

lemma trackIPAddress_fresh (d : IPData) (u : String) (now : Int)
    (hu : u ∉ d.users) (h5 : d.users.length + 1 ≤ 5)
    (h100 : d.count + 1 ≤ 100) :
    trackIPAddress (some d) u now =
      (⟨false, none⟩, ⟨d.users ++ [u], d.count + 1, now⟩) := by
  simp only [trackIPAddress, Option.getD_some]
  rw [if_neg hu]
  rw [if_neg (by simp only [List.length_append, List.length_cons,
    List.length_nil]; omega)]
  rw [if_neg (by omega)]

lemma trackIPAddress_sixth (d : IPData) (u : String) (now : Int)
    (hu : u ∉ d.users) (h5 : d.users.length = 5) :
    trackIPAddress (some d) u now =
      (⟨true, some "Multiple users (6) from same IP"⟩,
       ⟨d.users ++ [u], d.count + 1, now⟩) := by
  simp only [trackIPAddress, Option.getD_some]
  rw [if_neg hu]
  rw [if_pos (by simp only [List.length_append, List.length_cons,
    List.length_nil, h5]; omega)]
  rw [show (d.users ++ [u]).length = 6 from by
    simp only [List.length_append, List.length_cons, List.length_nil, h5]]
  rw [show ("Multiple users (" ++ toString (6 : Nat) ++ ") from same IP") =
    "Multiple users (6) from same IP" from by decide]

lemma trackSeq_none_cons (now : Int) (u : String) (us : List String) :
    trackSeq now (u :: us) none = trackSeq now (u :: us) (some ⟨[], 0, 0⟩) :=
  rfl

lemma trackSeq_singleton (now : Int) (u : String) (st : Option IPData) :
    trackSeq now [u] st =
      ([(trackIPAddress st u now).1], some (trackIPAddress st u now).2) :=
  rfl

lemma trackSeq_append (now : Int) (us vs : List String) :
    ∀ st, trackSeq now (us ++ vs) st =
      ((trackSeq now us st).1 ++
        (trackSeq now vs (trackSeq now us st).2).1,
       (trackSeq now vs (trackSeq now us st).2).2) := by
  induction us with
  | nil => intro st; rfl
  | cons u us ih =>
    intro st
    show ((trackIPAddress st u now).1 ::
        (trackSeq now (us ++ vs) (some (trackIPAddress st u now).2)).1,
      (trackSeq now (us ++ vs) (some (trackIPAddress st u now).2)).2) = _
    rw [ih (some (trackIPAddress st u now).2)]
    rfl

lemma trackSeq_fresh (now : Int) (us : List String) :
    ∀ d : IPData, us.Nodup → (∀ u ∈ us, u ∉ d.users) →
      d.users.length + us.length ≤ 5 → d.count + us.length ≤ 100 →
      (trackSeq now us (some d)).1 =
        List.replicate us.length ⟨false, none⟩ ∧
      ∃ t, (trackSeq now us (some d)).2 =
        some ⟨d.users ++ us, d.count + us.length, t⟩ := by
  induction us with
  | nil =>
    intro d _ _ _ _
    exact ⟨rfl, d.lastSeen, by simp [trackSeq]⟩
  | cons u us ih =>
    intro d hnd hdisj h5 h100
    have h5' : d.users.length + us.length + 1 ≤ 5 := by
      simp only [List.length_cons] at h5
      omega
    have h100' : d.count + us.length + 1 ≤ 100 := by
      simp only [List.length_cons] at h100
      omega
    have hu : u ∉ d.users := hdisj u (by simp)
    have hstep := trackIPAddress_fresh d u now hu (by omega) (by omega)
    have hd2 : ∀ v ∈ us, v ∉ d.users ++ [u] := by
      intro v hv
      simp only [List.mem_append, List.mem_singleton]
      rintro (hmem | heq)
      · exact hdisj v (by simp [hv]) hmem
      · exact (List.nodup_cons.mp hnd).1 (heq ▸ hv)
    have ih2 := ih ⟨d.users ++ [u], d.count + 1, now⟩
      (List.nodup_cons.mp hnd).2 hd2
      (by dsimp only
          simp only [List.length_append, List.length_cons, List.length_nil]
          omega)
      (by dsimp only
          omega)
    obtain ⟨ihres, t, ihst⟩ := ih2
    constructor
    · show (trackIPAddress (some d) u now).1 ::
        (trackSeq now us (some (trackIPAddress (some d) u now).2)).1 = _
      rw [hstep]
      dsimp only
      rw [ihres]
      simp [List.replicate_succ]
    · refine ⟨t, ?_⟩
      show (trackSeq now us (some (trackIPAddress (some d) u now).2)).2 = _
      rw [hstep]
      dsimp only
      rw [ihst]
      have hl : (d.users ++ [u]) ++ us = d.users ++ u :: us := by
        simp [List.append_assoc]
      have hc : d.count + 1 + us.length = d.count + (u :: us).length := by
        simp only [List.length_cons]
        omega
      rw [hl, hc]

/-- C9: for one IP receiving one call per distinct user, the first five
calls return `suspicious = false` and the sixth returns `suspicious = true`
with the multiple-users reason; membership keeps `users` a set (an
already-tracked user does not grow it); and `count` never decreases across
a call. -/
theorem trackIPAddress_multi_user (now : Int) (us : List String)
    (u6 : String) (hnd : us.Nodup) (hlen : us.length = 5) (h6 : u6 ∉ us) :
    (trackSeq now (us ++ [u6]) none).1 =
      List.replicate 5 ⟨false, none⟩ ++
        [⟨true, some "Multiple users (6) from same IP"⟩] ∧
    (∀ (d : IPData) (u : String) (n : Int), u ∈ d.users →
      ((trackIPAddress (some d) u n).2).users = d.users) ∧
    (∀ (stored : Option IPData) (u : String) (n : Int),
      (stored.getD ⟨[], 0, 0⟩).count ≤ (trackIPAddress stored u n).2.count) := by
  refine ⟨?_, ?_, ?_⟩
  · cases us with
    | nil => simp at hlen
    | cons a us2 =>
      rw [show (a :: us2) ++ [u6] = a :: (us2 ++ [u6]) from rfl,
        trackSeq_none_cons now a (us2 ++ [u6]),
        show a :: (us2 ++ [u6]) = (a :: us2) ++ [u6] from rfl,
        trackSeq_append]
      obtain ⟨hres, t, hst⟩ := trackSeq_fresh now (a :: us2) ⟨[], 0, 0⟩ hnd
        (by simp) (by simpa using hlen.le) (by simp [hlen])
      dsimp only at hst
      simp only [List.nil_append, Nat.zero_add] at hst
      rw [hres, hst, trackSeq_singleton]
      rw [trackIPAddress_sixth ⟨a :: us2, (a :: us2).length, t⟩ u6 now
        (by dsimp only; exact h6) (by dsimp only; exact hlen)]
      simp [hlen]
  · intro d u n hu
    simp only [trackIPAddress, Option.getD_some]
    rw [if_pos hu]
    split_ifs <;> rfl
  · intro stored u n
    simp only [trackIPAddress]
    split_ifs <;> dsimp only <;> omega

/-- C9 witness: six concrete distinct users from one IP. -/
theorem trackIPAddress_multi_user_witness :
    (trackSeq 0 (["a", "b", "c", "d", "e"] ++ ["f"]) none).1 =
      List.replicate 5 ⟨false, none⟩ ++
        [⟨true, some "Multiple users (6) from same IP"⟩] :=
  (trackIPAddress_multi_user 0 ["a", "b", "c", "d", "e"] "f" (by decide)
    (by decide) (by decide)).1

/-- C10: `isUserFlagged` swallows store errors — whenever the flag store is
unavailable it returns `false`, regardless of any live flags it holds. -/
theorem isUserFlagged_false_on_store_error (st : RedisState)
    (userId : String) (h : st.ok = false) :
    isUserFlagged st userId = false := by
  unfold isUserFlagged redisGet
  rw [h]
  rfl

/-- C10 witness: a user with a live flag is reported as not flagged while
the store is down. -/
theorem isUserFlagged_false_on_store_error_witness :
    isUserFlagged
      ⟨[("fraud:flagged:u1", ⟨"u1", "duplicate", 0⟩, 604800)], false⟩
      "u1" = false :=
  isUserFlagged_false_on_store_error
    ⟨[("fraud:flagged:u1", ⟨"u1", "duplicate", 0⟩, 604800)], false⟩
    "u1" rfl

/-- C3 (amended) witness: a concrete blocked event against an available
store leaves the user flagged. -/
theorem block_persists_flag_when_store_ok_witness :
    isUserFlagged
      (checkForFraud [⟨"t1", "u1", "p1", 50, TxStatus.completed, 1000000⟩] []
        ⟨[], true⟩ 1000000 "u1" "t1" 50 "p1").2 "u1" = true :=
  block_persists_flag_when_store_ok
    [⟨"t1", "u1", "p1", 50, TxStatus.completed, 1000000⟩] [] ⟨[], true⟩
    1000000 "u1" "t1" 50 "p1" rfl (by decide)

end FraudPreventionService

end Earn9ja

